import Mathlib

/-!
Verification of the TradeBikes repository against its specification.

The development shallowly embeds the two code units the claims refer to:

* the consistency-repair script `checkMikesAuctions` (shipped at the end of
  the repository's `.replit` file), which walks the auctions a trader is
  involved in and patches auction/motorcycle status pairs; and
* the auction-creation helpers of
  `client/src/components/forms/BikeUploadForm.tsx`
  (`getDurationMs`, `handleImageChange`, `removeImage`, the payload built by
  `createAuctionMutation`, and the relevant parts of `uploadSchema`).

JavaScript records become Lean structures, the in-memory `storage` maps
become lists of records updated by mapping over them (the real storage is a
`Map` keyed by `id`; updating every list entry with a matching `id` agrees
with `Map.set` whenever ids are unique, and is the natural total extension
otherwise).  Timestamps are opaque strings produced by an abstract clock
(`new Date().toISOString()` becomes `clock k` for the k-th processed
element); durations and epochs on the form side are natural numbers of
milliseconds.  JavaScript truthiness on a nullable string (`x || y`) is
modelled exactly, including the fact that the empty string is falsy.
-/

/-! ## Data model (records of the legacy storage) -/

/-- A user record, as read by `storage.getUserByUsername`. -/
structure User where
  id : Nat
  username : String
  role : String
deriving Repr, DecidableEq

/-- A motorcycle (Item) record.  `soldDate` is `none` when the field is
null/undefined in storage. -/
structure Motorcycle where
  id : Nat
  make : String
  model : String
  status : String
  soldDate : Option String
deriving Repr, DecidableEq

/-- An auction record with the fields the repair script reads or writes. -/
structure Auction where
  id : Nat
  motorcycleId : Nat
  dealerId : Nat
  status : String
  winningBidderId : Option Nat
  bidAccepted : Bool
  dealConfirmed : Bool
  collectionConfirmed : Bool
deriving Repr, DecidableEq

/-- A committed bid record. -/
structure Bid where
  id : Nat
  auctionId : Nat
  bidderId : Nat
  amount : Nat
deriving Repr, DecidableEq

/-- The in-memory storage: the global maps of the legacy server
(`storage.auctions`, `storage.motorcycles`, bids, users) as lists. -/
structure Storage where
  users : List User
  auctions : List Auction
  motorcycles : List Motorcycle
  bids : List Bid
deriving Repr, DecidableEq

/-! ## Storage operations used by the script -/

/-- `storage.getUserByUsername(name)`. -/
def getUserByUsername (st : Storage) (uname : String) : Option User :=
  st.users.find? (fun u => u.username == uname)

/-- `storage.motorcycles.get(mid)`. -/
def findMotorcycle (st : Storage) (mid : Nat) : Option Motorcycle :=
  st.motorcycles.find? (fun m => m.id == mid)

/-- Look up an auction record by id (`storage.auctions.get`). -/
def findAuction (st : Storage) (aid : Nat) : Option Auction :=
  st.auctions.find? (fun a => a.id == aid)

/-- `storage.updateAuction(aid, { status })`: merge the patch into the record
with the given id. -/
def updateAuction (st : Storage) (aid : Nat) (newStatus : String) : Storage :=
  { st with auctions :=
      st.auctions.map (fun a => if a.id == aid then { a with status := newStatus } else a) }

/-- `storage.updateMotorcycle(mid, { status, soldDate })`: merge the patch into
the record with the given id.  The script always passes a string `soldDate`. -/
def updateMotorcycle (st : Storage) (mid : Nat) (newStatus : String) (newSoldDate : String) :
    Storage :=
  { st with motorcycles :=
      st.motorcycles.map (fun m =>
        if m.id == mid then { m with status := newStatus, soldDate := some newSoldDate } else m) }

/-- JavaScript `x || y` for a nullable string `x`: null/undefined and the
empty string are falsy. -/
def jsOrElse (x : Option String) (y : String) : String :=
  match x with
  | none => y
  | some s => if s == "" then y else s

/-! ## The repair pass `checkMikesAuctions` (.replit, lines 125-239)

The pass first resolves the `miketrader` user, then iterates over
`storage.getAuctionsWithBidsByDealer(mikeId)` — each element an auction
joined with its motorcycle, a snapshot taken before the loop runs — and for
every auction Mike has won with an accepted bid whose statuses are not both
`pending_collection` it issues up to two separate storage writes. -/

/-- Modelled from the spec: `storage.getAuctionsWithBidsByDealer` lives in
`server/storage`, which is not part of the provided sources.  Per the
script's own output ("auctions with bids or as winner", line 175) it returns
the auctions on which the user has placed a bid or is recorded as winning
bidder.  The selection reads only `winningBidderId` and the bid records. -/
def getAuctionsWithBidsByDealer (st : Storage) (uid : Nat) : List Auction :=
  st.auctions.filter (fun a =>
    a.winningBidderId == some uid ||
      st.bids.any (fun b => b.auctionId == a.id && b.bidderId == uid))

/-- The selection joined with its motorcycle, exactly the snapshot the loop
body reads (`auction.motorcycle`).  Auctions whose `motorcycleId` does not
resolve are dropped; on such records the JavaScript pass crashes before
writing anything, so all theorems about stores containing them are read
against this total model. -/
def selectionSnaps (st : Storage) (uid : Nat) : List (Auction × Motorcycle) :=
  (getAuctionsWithBidsByDealer st uid).filterMap
    (fun a => (findMotorcycle st a.motorcycleId).map (fun m => (a, m)))

/-- Guard of the fix block (line 185): the auction is won by the user and the
bid has been accepted. -/
def wantsFix (uid : Nat) (a : Auction) : Bool :=
  a.winningBidderId == some uid && a.bidAccepted

/-- One iteration of the fix loop (lines 185-209), reading the snapshot
`snap` and writing to the evolving storage `st`.  `now` is the value of
`new Date().toISOString()` for this iteration. -/
def fixAuction (uid : Nat) (now : String) (st : Storage) (snap : Auction × Motorcycle) :
    Storage :=
  let a := snap.1
  let m := snap.2
  if wantsFix uid a then
    if !(a.status == "pending_collection") || !(m.status == "pending_collection") then
      let st1 := if !(a.status == "pending_collection")
        then updateAuction st a.id "pending_collection" else st
      if !(m.status == "pending_collection")
        then updateMotorcycle st1 m.id "pending_collection" (jsOrElse m.soldDate now)
        else st1
    else st
  else st

/-- The fix loop over the snapshot list; `k` is the index of the current
element (used to timestamp its write via `clock`). -/
def fixLoop (uid : Nat) (clock : Nat → String) :
    List (Auction × Motorcycle) → Nat → Storage → Storage
  | [], _, st => st
  | snap :: rest, k, st => fixLoop uid clock rest (k + 1) (fixAuction uid (clock k) st snap)

/-- The whole repair pass: resolve `miketrader`, snapshot the selection, run
the fix loop.  If the user is missing the script returns without touching
storage. -/
def checkMikesAuctions (clock : Nat → String) (st : Storage) : Storage :=
  match getUserByUsername st "miketrader" with
  | none => st
  | some mike => fixLoop mike.id clock (selectionSnaps st mike.id) 0 st

/-! ### Observable traces

`updateAuction` and `updateMotorcycle` are two separate storage calls; the
trace collects the storage state after each individual call, i.e. every
state an observer of the store can see while the pass runs. -/

/-- The storage states observable after each individual write of one loop
iteration. -/
def fixAuctionTrace (uid : Nat) (now : String) (st : Storage) (snap : Auction × Motorcycle) :
    List Storage :=
  let a := snap.1
  let m := snap.2
  if wantsFix uid a then
    if !(a.status == "pending_collection") || !(m.status == "pending_collection") then
      let st1 := if !(a.status == "pending_collection")
        then updateAuction st a.id "pending_collection" else st
      let tr1 := if !(a.status == "pending_collection") then [st1] else []
      let st2 := if !(m.status == "pending_collection")
        then updateMotorcycle st1 m.id "pending_collection" (jsOrElse m.soldDate now)
        else st1
      let tr2 := if !(m.status == "pending_collection") then [st2] else []
      tr1 ++ tr2
    else []
  else []

/-- All storage states observable during the fix loop. -/
def fixLoopTrace (uid : Nat) (clock : Nat → String) :
    List (Auction × Motorcycle) → Nat → Storage → List Storage
  | [], _, _ => []
  | snap :: rest, k, st =>
      fixAuctionTrace uid (clock k) st snap ++
        fixLoopTrace uid clock rest (k + 1) (fixAuction uid (clock k) st snap)

/-- All storage states observable during the whole pass. -/
def checkMikesAuctionsTrace (clock : Nat → String) (st : Storage) : List Storage :=
  match getUserByUsername st "miketrader" with
  | none => []
  | some mike => fixLoopTrace mike.id clock (selectionSnaps st mike.id) 0 st

/-! ## BikeUploadForm helpers -/

/-- `getDurationMs` (BikeUploadForm.tsx, lines 209-221). -/
def getDurationMs (duration : String) : Nat :=
  let dayInMs := 24 * 60 * 60 * 1000
  let weekInMs := 7 * dayInMs
  let monthInMs := 30 * dayInMs
  match duration with
  | "1day" => dayInMs
  | "1week" => weekInMs
  | "2weeks" => 2 * weekInMs
  | "1month" => monthInMs
  | _ => dayInMs

/-- The form fields of `uploadSchema` that the auction-creation claims read.
`year`/`mileage` are `none` when the field was left empty (zod preprocesses
the empty string to null). -/
structure UploadFormValues where
  dealerId : Option Nat
  make : String
  year : Option Int
  mileage : Option Int
  auctionDuration : String
  visibilityType : String
  visibilityRadius : Option Int
deriving Repr, DecidableEq

/-- The `z.enum(['all', 'favorites', 'radius'])` check of `uploadSchema`. -/
def validVisibilityType (s : String) : Bool :=
  s == "all" || s == "favorites" || s == "radius"

/-- The `z.enum(['1day', '1week', '2weeks', '1month'])` check. -/
def validAuctionDuration (s : String) : Bool :=
  s == "1day" || s == "1week" || s == "2weeks" || s == "1month"

/-- The checks of `uploadSchema` on the embedded fields; `handleSubmit` only
invokes the mutation when the resolver accepts the form data. -/
def uploadSchemaCheck (d : UploadFormValues) : Bool :=
  decide (1 ≤ d.make.length) &&
  (match d.year with
   | some y => decide (0 < y)
   | none => false) &&
  (match d.mileage with
   | some m => decide (0 ≤ m)
   | none => false) &&
  validAuctionDuration d.auctionDuration &&
  validVisibilityType d.visibilityType

/-- The body sent to `POST /api/auctions` by `createAuctionMutation`
(BikeUploadForm.tsx, lines 248-260).  `now` is `new Date().getTime()` in
milliseconds; the ISO serialization of the two instants is kept as the
instants themselves. -/
structure AuctionRequest where
  motorcycleId : Nat
  dealerId : Option Nat
  startTime : Nat
  endTime : Nat
  visibilityType : String
  visibilityRadius : Option Int
deriving Repr, DecidableEq

/-- `createAuctionMutation`'s auction payload: `startTime = new Date()`,
`endTime = startTime.getTime() + getDurationMs(data.auctionDuration)`,
`visibilityRadius = data.visibilityType === 'radius' ? data.visibilityRadius
: null`. -/
def createAuctionPayload (now : Nat) (motorcycleId : Nat) (d : UploadFormValues) :
    AuctionRequest :=
  { motorcycleId := motorcycleId
    dealerId := d.dealerId
    startTime := now
    endTime := now + getDurationMs d.auctionDuration
    visibilityType := d.visibilityType
    visibilityRadius := if d.visibilityType == "radius" then d.visibilityRadius else none }

/-! ## Image selection state (`handleImageChange` / `removeImage`) -/

/-- The two pieces of component state: the selected `File`s (opaque handles)
and their preview URLs. -/
structure ImageState where
  imageFiles : List Nat
  imageUrls : List String
deriving Repr, DecidableEq

/-- The initial state: `useState([])` twice. -/
def initialImageState : ImageState := { imageFiles := [], imageUrls := [] }

/-- JavaScript `list.filter((_, i) => i !== index)`, used by `removeImage`. -/
def removeAt {α : Type} (l : List α) (idx : Nat) : List α :=
  (l.enum.filter (fun p => p.1 ≠ idx)).map Prod.snd

/-- `handleImageChange` (lines 167-189): truncate the incoming file list to
the remaining capacity out of 20, append, and append the matching preview
URLs.  `mkUrl` stands for `URL.createObjectURL`; a null `e.target.files`
leaves the state unchanged.  (`maxImages - imageFiles.length` is a
nonnegative JavaScript number in every state reachable from the empty
selection, where truncated `Nat` subtraction agrees with it.) -/
def handleImageChange (mkUrl : Nat → String) (files : Option (List Nat)) (s : ImageState) :
    ImageState :=
  match files with
  | none => s
  | some filesArray =>
      let maxImages := 20
      let newFiles := filesArray.take (maxImages - s.imageFiles.length)
      let newUrls := newFiles.map mkUrl
      { imageFiles := s.imageFiles ++ newFiles
        imageUrls := s.imageUrls ++ newUrls }

/-- `removeImage` (lines 192-198). -/
def removeImage (idx : Nat) (s : ImageState) : ImageState :=
  { imageFiles := removeAt s.imageFiles idx
    imageUrls := removeAt s.imageUrls idx }

/-- A user interaction with the image picker. -/
inductive ImgOp : Type
  | change (files : Option (List Nat))
  | remove (idx : Nat)

/-- Apply one interaction. -/
def applyImgOp (mkUrl : Nat → String) (s : ImageState) : ImgOp → ImageState
  | ImgOp.change files => handleImageChange mkUrl files s
  | ImgOp.remove idx => removeImage idx s

/-- Run a sequence of interactions from the empty selection. -/
def runImgOps (mkUrl : Nat → String) (ops : List ImgOp) : ImageState :=
  ops.foldl (applyImgOp mkUrl) initialImageState

/-! ## Concrete stores used by counterexamples and witnesses -/

/-- The `miketrader` user of the script's scenario. -/
def mikeUser : User := { id := 1, username := "miketrader", role := "trader" }

/-- A fixed per-element clock for concrete runs. -/
def clockA : Nat → String := fun _ => "2025-01-01T00:00:00.000Z"

/-- A clock producing distinct timestamps for the first two elements. -/
def clockB : Nat → String := fun k =>
  if k == 0 then "2025-01-01T00:00:00.000Z" else "2025-01-01T00:00:05.000Z"

/-- A store with an auction/motorcycle pair that disagrees (auction
`pending_collection`, motorcycle `in_auction`) on an auction Mike bid on but
did not win: the pass leaves the disagreement in place. -/
def storeUnwon : Storage :=
  { users := [mikeUser]
    auctions := [{ id := 10, motorcycleId := 100, dealerId := 5,
                   status := "pending_collection", winningBidderId := some 2,
                   bidAccepted := true, dealConfirmed := false,
                   collectionConfirmed := false }]
    motorcycles := [{ id := 100, make := "Honda", model := "CBR600", status := "in_auction",
                      soldDate := none }]
    bids := [{ id := 1, auctionId := 10, bidderId := 1, amount := 4000 }] }

/-- A store with a completed auction, won by Mike with the bid accepted, whose
motorcycle is `sold` with a recorded `soldDate`: a fully consistent terminal
state. -/
def storeCompleted : Storage :=
  { users := [mikeUser]
    auctions := [{ id := 20, motorcycleId := 200, dealerId := 5,
                   status := "completed", winningBidderId := some 1,
                   bidAccepted := true, dealConfirmed := true,
                   collectionConfirmed := true }]
    motorcycles := [{ id := 200, make := "Yamaha", model := "MT-07", status := "sold",
                      soldDate := some "2024-06-01T12:00:00.000Z" }]
    bids := [] }

/-- A store with one auction won by Mike (bid accepted) still in
`pending_acceptance` with its motorcycle `in_auction`: the state the pass is
meant to repair. -/
def storeDrifted : Storage :=
  { users := [mikeUser]
    auctions := [{ id := 10, motorcycleId := 100, dealerId := 5,
                   status := "pending_acceptance", winningBidderId := some 1,
                   bidAccepted := true, dealConfirmed := false,
                   collectionConfirmed := false }]
    motorcycles := [{ id := 100, make := "Honda", model := "CBR600", status := "in_auction",
                      soldDate := none }]
    bids := [] }

/-- A store in which two auctions, both won by Mike with accepted bids,
reference the same motorcycle (e.g. a relisted bike). -/
def storeAliased : Storage :=
  { users := [mikeUser]
    auctions := [{ id := 10, motorcycleId := 100, dealerId := 5,
                   status := "pending_acceptance", winningBidderId := some 1,
                   bidAccepted := true, dealConfirmed := false,
                   collectionConfirmed := false },
                 { id := 11, motorcycleId := 100, dealerId := 6,
                   status := "pending_acceptance", winningBidderId := some 1,
                   bidAccepted := true, dealConfirmed := false,
                   collectionConfirmed := false }]
    motorcycles := [{ id := 100, make := "Honda", model := "CBR600", status := "in_auction",
                      soldDate := none }]
    bids := [] }

/-- A store that is already consistent: Mike's won auction and its motorcycle
are both `pending_collection`. -/
def storeConsistent : Storage :=
  { users := [mikeUser]
    auctions := [{ id := 30, motorcycleId := 300, dealerId := 5,
                   status := "pending_collection", winningBidderId := some 1,
                   bidAccepted := true, dealConfirmed := false,
                   collectionConfirmed := false }]
    motorcycles := [{ id := 300, make := "KTM", model := "Duke 390",
                      status := "pending_collection",
                      soldDate := some "2024-06-01T12:00:00.000Z" }]
    bids := [] }

/-- Status of the auction with the given id, if any. -/
def auctionStatusOf (st : Storage) (aid : Nat) : Option String :=
  (findAuction st aid).map Auction.status

/-- Status of the motorcycle with the given id, if any. -/
def motoStatusOf (st : Storage) (mid : Nat) : Option String :=
  (findMotorcycle st mid).map Motorcycle.status

/-- `soldDate` of the motorcycle with the given id at step `i` of a trace. -/
def soldAt (tr : List Storage) (i : Nat) (mid : Nat) : Option String :=
  match tr.get? i with
  | none => none
  | some s =>
      match findMotorcycle s mid with
      | none => none
      | some m => m.soldDate

/-! ## Characterizing the writes of one pass

Every guard of the loop body reads the pre-pass snapshot, never the evolving
storage, so the set of writes a pass performs is a function of the snapshot
list alone.  The two predicates below compute it. -/

/-- The pass calls `updateAuction` on the auction id `aid` iff some snapshot
carries that id, is won by the user with the bid accepted, and its snapshot
status differs from `pending_collection`. -/
def auctionWritten (uid : Nat) (snaps : List (Auction × Motorcycle)) (aid : Nat) : Bool :=
  snaps.any (fun s =>
    wantsFix uid s.1 && !(s.1.status == "pending_collection") && s.1.id == aid)

/-- The `soldDate` value carried by the last `updateMotorcycle` call the pass
issues against motorcycle id `mid` (`none` when no such call happens); `k` is
the clock index of the first snapshot. -/
def lastSoldWrite (uid : Nat) (clock : Nat → String) :
    List (Auction × Motorcycle) → Nat → Nat → Option String
  | [], _, _ => none
  | s :: rest, k, mid =>
      match lastSoldWrite uid clock rest (k + 1) mid with
      | some v => some v
      | none =>
          if wantsFix uid s.1 && !(s.2.status == "pending_collection") && s.2.id == mid then
            some (jsOrElse s.2.soldDate (clock k))
          else none

theorem fixAuction_users (uid : Nat) (now : String) (st : Storage)
    (snap : Auction × Motorcycle) : (fixAuction uid now st snap).users = st.users := by
  unfold fixAuction
  rcases Bool.eq_false_or_eq_true (wantsFix uid snap.1) with hw | hw <;>
    rcases Bool.eq_false_or_eq_true (snap.1.status == "pending_collection") with ha | ha <;>
    rcases Bool.eq_false_or_eq_true (snap.2.status == "pending_collection") with hm | hm <;>
      simp [hw, ha, hm, updateAuction, updateMotorcycle]

theorem fixAuction_bids (uid : Nat) (now : String) (st : Storage)
    (snap : Auction × Motorcycle) : (fixAuction uid now st snap).bids = st.bids := by
  unfold fixAuction
  rcases Bool.eq_false_or_eq_true (wantsFix uid snap.1) with hw | hw <;>
    rcases Bool.eq_false_or_eq_true (snap.1.status == "pending_collection") with ha | ha <;>
    rcases Bool.eq_false_or_eq_true (snap.2.status == "pending_collection") with hm | hm <;>
      simp [hw, ha, hm, updateAuction, updateMotorcycle]

theorem fixAuction_auctions (uid : Nat) (now : String) (st : Storage)
    (snap : Auction × Motorcycle) :
    (fixAuction uid now st snap).auctions =
      if wantsFix uid snap.1 && !(snap.1.status == "pending_collection") then
        st.auctions.map (fun a =>
          if a.id == snap.1.id then { a with status := "pending_collection" } else a)
      else st.auctions := by
  unfold fixAuction
  rcases Bool.eq_false_or_eq_true (wantsFix uid snap.1) with hw | hw <;>
    rcases Bool.eq_false_or_eq_true (snap.1.status == "pending_collection") with ha | ha <;>
    rcases Bool.eq_false_or_eq_true (snap.2.status == "pending_collection") with hm | hm <;>
      simp [hw, ha, hm, updateAuction, updateMotorcycle]

theorem fixAuction_motorcycles (uid : Nat) (now : String) (st : Storage)
    (snap : Auction × Motorcycle) :
    (fixAuction uid now st snap).motorcycles =
      if wantsFix uid snap.1 && !(snap.2.status == "pending_collection") then
        st.motorcycles.map (fun m =>
          if m.id == snap.2.id then
            { m with status := "pending_collection",
                     soldDate := some (jsOrElse snap.2.soldDate now) }
          else m)
      else st.motorcycles := by
  unfold fixAuction
  rcases Bool.eq_false_or_eq_true (wantsFix uid snap.1) with hw | hw <;>
    rcases Bool.eq_false_or_eq_true (snap.1.status == "pending_collection") with ha | ha <;>
    rcases Bool.eq_false_or_eq_true (snap.2.status == "pending_collection") with hm | hm <;>
      simp [hw, ha, hm, updateAuction, updateMotorcycle]

theorem fixLoop_users (uid : Nat) (clock : Nat → String) :
    ∀ (snaps : List (Auction × Motorcycle)) (k : Nat) (st : Storage),
    (fixLoop uid clock snaps k st).users = st.users
  | [], _, _ => rfl
  | snap :: rest, k, st => by
      rw [fixLoop, fixLoop_users uid clock rest (k + 1), fixAuction_users]

theorem fixLoop_bids (uid : Nat) (clock : Nat → String) :
    ∀ (snaps : List (Auction × Motorcycle)) (k : Nat) (st : Storage),
    (fixLoop uid clock snaps k st).bids = st.bids
  | [], _, _ => rfl
  | snap :: rest, k, st => by
      rw [fixLoop, fixLoop_bids uid clock rest (k + 1), fixAuction_bids]

theorem fixLoop_auctions (uid : Nat) (clock : Nat → String) :
    ∀ (snaps : List (Auction × Motorcycle)) (k : Nat) (st : Storage),
    (fixLoop uid clock snaps k st).auctions =
      st.auctions.map (fun a =>
        if auctionWritten uid snaps a.id then { a with status := "pending_collection" } else a)
  | [], k, st => by
      simp [fixLoop, auctionWritten]
  | snap :: rest, k, st => by
      rw [fixLoop, fixLoop_auctions uid clock rest (k + 1), fixAuction_auctions]
      rcases Bool.eq_false_or_eq_true
          (wantsFix uid snap.1 && !(snap.1.status == "pending_collection")) with hc | hc
      · rw [if_pos hc, List.map_map]
        congr 1
        funext a
        simp only [Function.comp_apply, auctionWritten, List.any_cons, hc, Bool.true_and]
        generalize snap.1.id = sid
        by_cases hid : a.id = sid
        · subst hid
          simp
        · have h1 : (a.id == sid) = false := by simp [hid]
          have h2 : (sid == a.id) = false := by simp [Ne.symm hid]
          simp only [h1, h2, Bool.false_or]
          simp [Bool.false_eq_true]
      · rw [if_neg (by simp [hc])]
        congr 1
        funext a
        have hhead : (wantsFix uid snap.1 && !(snap.1.status == "pending_collection") &&
            (snap.1.id == a.id)) = false := by
          simp [hc]
        simp only [auctionWritten, List.any_cons, hhead, Bool.false_or]

theorem fixLoop_motorcycles (uid : Nat) (clock : Nat → String) :
    ∀ (snaps : List (Auction × Motorcycle)) (k : Nat) (st : Storage),
    (fixLoop uid clock snaps k st).motorcycles =
      st.motorcycles.map (fun m =>
        match lastSoldWrite uid clock snaps k m.id with
        | some v => { m with status := "pending_collection", soldDate := some v }
        | none => m)
  | [], k, st => by
      simp [fixLoop, lastSoldWrite]
  | snap :: rest, k, st => by
      rw [fixLoop, fixLoop_motorcycles uid clock rest (k + 1), fixAuction_motorcycles]
      rcases Bool.eq_false_or_eq_true
          (wantsFix uid snap.1 && !(snap.2.status == "pending_collection")) with hc | hc
      · rw [if_pos hc, List.map_map]
        congr 1
        funext m
        simp only [Function.comp_apply, lastSoldWrite, hc, Bool.true_and]
        generalize snap.2.id = sid
        by_cases hid : m.id = sid
        · subst hid
          cases hl : lastSoldWrite uid clock rest (k + 1) m.id <;> simp [hl]
        · have h1 : (m.id == sid) = false := by simp [hid]
          have h2 : (sid == m.id) = false := by simp [Ne.symm hid]
          simp only [h1, h2, Bool.and_false, if_false, Bool.false_eq_true]
          cases hl : lastSoldWrite uid clock rest (k + 1) m.id <;> simp [hl]
      · rw [if_neg (by simp [hc])]
        congr 1
        funext m
        simp only [lastSoldWrite, hc, Bool.false_and]
        cases hl : lastSoldWrite uid clock rest (k + 1) m.id <;> simp [hl]

/-! ## How one pass transforms individual records -/

/-- The auction record as the pass leaves it. -/
def auctionAfter (uid : Nat) (snaps : List (Auction × Motorcycle)) (a : Auction) : Auction :=
  if auctionWritten uid snaps a.id then { a with status := "pending_collection" } else a

/-- The motorcycle record as the pass leaves it. -/
def motoAfter (uid : Nat) (clock : Nat → String) (snaps : List (Auction × Motorcycle))
    (m : Motorcycle) : Motorcycle :=
  match lastSoldWrite uid clock snaps 0 m.id with
  | some v => { m with status := "pending_collection", soldDate := some v }
  | none => m

theorem auctionAfter_id (uid : Nat) (snaps : List (Auction × Motorcycle)) (a : Auction) :
    (auctionAfter uid snaps a).id = a.id := by
  unfold auctionAfter; split <;> rfl

theorem auctionAfter_motorcycleId (uid : Nat) (snaps : List (Auction × Motorcycle))
    (a : Auction) : (auctionAfter uid snaps a).motorcycleId = a.motorcycleId := by
  unfold auctionAfter; split <;> rfl

theorem auctionAfter_winningBidderId (uid : Nat) (snaps : List (Auction × Motorcycle))
    (a : Auction) : (auctionAfter uid snaps a).winningBidderId = a.winningBidderId := by
  unfold auctionAfter; split <;> rfl

theorem auctionAfter_bidAccepted (uid : Nat) (snaps : List (Auction × Motorcycle))
    (a : Auction) : (auctionAfter uid snaps a).bidAccepted = a.bidAccepted := by
  unfold auctionAfter; split <;> rfl

theorem wantsFix_auctionAfter (uid : Nat) (snaps : List (Auction × Motorcycle)) (a : Auction) :
    wantsFix uid (auctionAfter uid snaps a) = wantsFix uid a := by
  unfold wantsFix
  rw [auctionAfter_winningBidderId, auctionAfter_bidAccepted]

theorem motoAfter_id (uid : Nat) (clock : Nat → String)
    (snaps : List (Auction × Motorcycle)) (m : Motorcycle) :
    (motoAfter uid clock snaps m).id = m.id := by
  unfold motoAfter
  cases lastSoldWrite uid clock snaps 0 m.id <;> rfl

theorem fixLoop_auctions_eq (uid : Nat) (clock : Nat → String)
    (snaps : List (Auction × Motorcycle)) (st : Storage) :
    (fixLoop uid clock snaps 0 st).auctions = st.auctions.map (auctionAfter uid snaps) := by
  rw [fixLoop_auctions]
  rfl

theorem fixLoop_motorcycles_eq (uid : Nat) (clock : Nat → String)
    (snaps : List (Auction × Motorcycle)) (st : Storage) :
    (fixLoop uid clock snaps 0 st).motorcycles =
      st.motorcycles.map (motoAfter uid clock snaps) := by
  rw [fixLoop_motorcycles]
  rfl

theorem findMotorcycle_fixLoop (uid : Nat) (clock : Nat → String)
    (snaps : List (Auction × Motorcycle)) (st : Storage) (mid : Nat) :
    findMotorcycle (fixLoop uid clock snaps 0 st) mid =
      (findMotorcycle st mid).map (motoAfter uid clock snaps) := by
  unfold findMotorcycle
  rw [fixLoop_motorcycles_eq, List.find?_map]
  have hp : ((fun m : Motorcycle => m.id == mid) ∘ motoAfter uid clock snaps) =
      (fun m : Motorcycle => m.id == mid) := by
    funext m
    simp [Function.comp_apply, motoAfter_id]
  rw [hp]

theorem getUserByUsername_fixLoop (uid : Nat) (clock : Nat → String)
    (snaps : List (Auction × Motorcycle)) (st : Storage) (uname : String) :
    getUserByUsername (fixLoop uid clock snaps 0 st) uname = getUserByUsername st uname := by
  unfold getUserByUsername
  rw [fixLoop_users]

theorem selection_fixLoop (uid : Nat) (clock : Nat → String)
    (snaps : List (Auction × Motorcycle)) (st : Storage) :
    getAuctionsWithBidsByDealer (fixLoop uid clock snaps 0 st) uid =
      (getAuctionsWithBidsByDealer st uid).map (auctionAfter uid snaps) := by
  unfold getAuctionsWithBidsByDealer
  rw [fixLoop_bids, fixLoop_auctions_eq, List.filter_map]
  congr 1
  apply List.filter_congr
  intro a _
  simp [Function.comp_apply, auctionAfter_winningBidderId, auctionAfter_id]

theorem selectionSnaps_fixLoop (uid : Nat) (clock : Nat → String) (st : Storage) :
    selectionSnaps (fixLoop uid clock (selectionSnaps st uid) 0 st) uid =
      (selectionSnaps st uid).map
        (fun s => (auctionAfter uid (selectionSnaps st uid) s.1,
                   motoAfter uid clock (selectionSnaps st uid) s.2)) := by
  unfold selectionSnaps
  rw [selection_fixLoop, List.filterMap_map, List.map_filterMap]
  congr 1
  funext a
  rw [Function.comp_apply, auctionAfter_motorcycleId, findMotorcycle_fixLoop]
  cases findMotorcycle st a.motorcycleId <;> rfl

theorem lastSoldWrite_eq_none (uid : Nat) (clock : Nat → String) :
    ∀ (snaps : List (Auction × Motorcycle)) (k : Nat) (mid : Nat),
    lastSoldWrite uid clock snaps k mid = none →
    ∀ s ∈ snaps,
      (wantsFix uid s.1 && !(s.2.status == "pending_collection") && (s.2.id == mid)) = false
  | [], _, _, _, s, hs => absurd hs (List.not_mem_nil s)
  | snap :: rest, k, mid, h, s, hs => by
      rw [lastSoldWrite] at h
      rcases hrest : lastSoldWrite uid clock rest (k + 1) mid with _ | v
      · rw [hrest] at h
        rcases List.mem_cons.mp hs with hhead | htail
        · subst hhead
          rcases Bool.eq_false_or_eq_true
              (wantsFix uid s.1 && !(s.2.status == "pending_collection") && (s.2.id == mid))
            with hc | hc
          · rw [if_pos hc] at h
            exact absurd h (Option.some_ne_none _)
          · exact hc
        · exact lastSoldWrite_eq_none uid clock rest (k + 1) mid hrest s htail
      · rw [hrest] at h
        exact absurd h (Option.some_ne_none v)

theorem auctionWritten_eq_false (uid : Nat) (snaps : List (Auction × Motorcycle)) (aid : Nat)
    (h : auctionWritten uid snaps aid = false) :
    ∀ s ∈ snaps,
      (wantsFix uid s.1 && !(s.1.status == "pending_collection") && (s.1.id == aid)) = false := by
  intro s hs
  unfold auctionWritten at h
  rw [List.any_eq_false] at h
  have hnot := h s hs
  rcases Bool.eq_false_or_eq_true
      (wantsFix uid s.1 && !(s.1.status == "pending_collection") && (s.1.id == aid))
    with hx | hx
  · exact absurd hx hnot
  · exact hx

/-- After one pass, every auction in the processed set that is won by the
user with the bid accepted has both its own status and its motorcycle's
status equal to `pending_collection`. -/
theorem pass_post_consistent (uid : Nat) (clock : Nat → String) (st : Storage) :
    ∀ a m,
    (a, m) ∈ selectionSnaps (fixLoop uid clock (selectionSnaps st uid) 0 st) uid →
    wantsFix uid a = true →
    a.status = "pending_collection" ∧ m.status = "pending_collection" := by
  intro a m hmem hw
  rw [selectionSnaps_fixLoop] at hmem
  rcases List.mem_map.mp hmem with ⟨s, hs, heq⟩
  have ha : auctionAfter uid (selectionSnaps st uid) s.1 = a := congrArg Prod.fst heq
  have hm : motoAfter uid clock (selectionSnaps st uid) s.2 = m := congrArg Prod.snd heq
  have hw1 : wantsFix uid s.1 = true := by
    rw [← ha, wantsFix_auctionAfter] at hw
    exact hw
  refine ⟨?_, ?_⟩
  · rw [← ha]
    unfold auctionAfter
    rcases hwr : auctionWritten uid (selectionSnaps st uid) s.1.id with _ | _
    · have hall := auctionWritten_eq_false uid (selectionSnaps st uid) s.1.id hwr s hs
      rw [hw1, Bool.true_and] at hall
      have hid : (s.1.id == s.1.id) = true := by simp
      rw [hid, Bool.and_true] at hall
      have hpc : (s.1.status == "pending_collection") = true := by
        rcases Bool.eq_false_or_eq_true (s.1.status == "pending_collection") with hx | hx
        · exact hx
        · rw [hx] at hall
          simp at hall
      simp only [hwr, Bool.false_eq_true, if_false]
      exact eq_of_beq hpc
    · simp [hwr]
  · rw [← hm]
    unfold motoAfter
    rcases hsw : lastSoldWrite uid clock (selectionSnaps st uid) 0 s.2.id with _ | v
    · have hall := lastSoldWrite_eq_none uid clock (selectionSnaps st uid) 0 s.2.id hsw s hs
      rw [hw1, Bool.true_and] at hall
      have hid : (s.2.id == s.2.id) = true := by simp
      rw [hid, Bool.and_true] at hall
      have hpc : (s.2.status == "pending_collection") = true := by
        rcases Bool.eq_false_or_eq_true (s.2.status == "pending_collection") with hx | hx
        · exact hx
        · rw [hx] at hall
          simp at hall
      exact eq_of_beq hpc
    · rfl

/-- When every selected won-and-accepted snapshot already shows both statuses
as `pending_collection`, the loop issues no writes at all. -/
theorem fixLoop_noop (uid : Nat) (clock : Nat → String) :
    ∀ (snaps : List (Auction × Motorcycle)) (k : Nat) (st : Storage),
    (∀ s ∈ snaps, wantsFix uid s.1 = true →
        s.1.status = "pending_collection" ∧ s.2.status = "pending_collection") →
    fixLoop uid clock snaps k st = st
  | [], _, _, _ => rfl
  | snap :: rest, k, st, h => by
      have hstep : fixAuction uid (clock k) st snap = st := by
        unfold fixAuction
        rcases Bool.eq_false_or_eq_true (wantsFix uid snap.1) with hw | hw
        · have hpc := h snap (List.mem_cons_self snap rest) hw
          simp [hw, hpc.1, hpc.2]
        · simp [hw]
      rw [fixLoop, hstep]
      exact fixLoop_noop uid clock rest (k + 1) st
        (fun s hs => h s (List.mem_cons_of_mem snap hs))

theorem checkMikesAuctions_eq_of_user (clock : Nat → String) (st : Storage) (mike : User)
    (hu : getUserByUsername st "miketrader" = some mike) :
    checkMikesAuctions clock st = fixLoop mike.id clock (selectionSnaps st mike.id) 0 st := by
  unfold checkMikesAuctions
  rw [hu]

theorem checkMikesAuctions_eq_of_no_user (clock : Nat → String) (st : Storage)
    (hu : getUserByUsername st "miketrader" = none) :
    checkMikesAuctions clock st = st := by
  unfold checkMikesAuctions
  rw [hu]

/-- Running the repair pass twice in a row is the same as running it once,
whatever timestamps the two runs observe. -/
theorem checkMikesAuctions_idem (clock1 clock2 : Nat → String) (st : Storage) :
    checkMikesAuctions clock2 (checkMikesAuctions clock1 st) = checkMikesAuctions clock1 st := by
  rcases hu : getUserByUsername st "miketrader" with _ | mike
  · rw [checkMikesAuctions_eq_of_no_user clock1 st hu,
      checkMikesAuctions_eq_of_no_user clock2 st hu]
  · have h1 := checkMikesAuctions_eq_of_user clock1 st mike hu
    have hu' : getUserByUsername (checkMikesAuctions clock1 st) "miketrader" = some mike := by
      rw [h1, getUserByUsername_fixLoop, hu]
    rw [checkMikesAuctions_eq_of_user clock2 _ mike hu', h1]
    apply fixLoop_noop
    intro s hs hw
    exact pass_post_consistent mike.id clock1 st s.1 s.2 hs hw

/-! ## Single-write lemmas and further helpers -/

theorem findAuction_updateAuction (st : Storage) (aid : Nat) (stt : String) :
    findAuction (updateAuction st aid stt) aid =
      (findAuction st aid).map (fun a => { a with status := stt }) := by
  unfold findAuction updateAuction
  rw [List.find?_map]
  have hp : ((fun x : Auction => x.id == aid) ∘
      (fun x : Auction => if x.id == aid then { x with status := stt } else x)) =
      (fun x : Auction => x.id == aid) := by
    funext x
    by_cases hx : x.id = aid <;> simp [hx]
  rw [hp]
  rcases hf : st.auctions.find? (fun x => x.id == aid) with _ | a
  · rw [hf]
    rfl
  · have hpa := List.find?_some hf
    rw [hf]
    simp only [Option.map_some']
    rw [if_pos hpa]

theorem findMotorcycle_updateMotorcycle (st : Storage) (mid : Nat) (stt sd : String) :
    findMotorcycle (updateMotorcycle st mid stt sd) mid =
      (findMotorcycle st mid).map (fun m => { m with status := stt, soldDate := some sd }) := by
  unfold findMotorcycle updateMotorcycle
  rw [List.find?_map]
  have hp : ((fun x : Motorcycle => x.id == mid) ∘
      (fun x : Motorcycle =>
        if x.id == mid then { x with status := stt, soldDate := some sd } else x)) =
      (fun x : Motorcycle => x.id == mid) := by
    funext x
    by_cases hx : x.id = mid <;> simp [hx]
  rw [hp]
  rcases hf : st.motorcycles.find? (fun x => x.id == mid) with _ | m
  · rw [hf]
    rfl
  · have hpm := List.find?_some hf
    rw [hf]
    simp only [Option.map_some']
    rw [if_pos hpm]

theorem findMotorcycle_updateAuction (st : Storage) (aid : Nat) (stt : String) (mid : Nat) :
    findMotorcycle (updateAuction st aid stt) mid = findMotorcycle st mid := rfl

theorem findAuction_updateMotorcycle (st : Storage) (mid : Nat) (stt sd : String) (aid : Nat) :
    findAuction (updateMotorcycle st mid stt sd) aid = findAuction st aid := rfl

theorem jsOrElse_of_ne_empty (s : String) (t : String) (h : s ≠ "") :
    jsOrElse (some s) t = s := by
  simp only [jsOrElse]
  rw [if_neg]
  simp [h]

theorem lastSoldWrite_eq_some (uid : Nat) (clock : Nat → String) :
    ∀ (snaps : List (Auction × Motorcycle)) (k : Nat) (mid : Nat) (v : String),
    lastSoldWrite uid clock snaps k mid = some v →
    ∃ s ∈ snaps, ∃ j,
      (wantsFix uid s.1 && !(s.2.status == "pending_collection") && (s.2.id == mid)) = true ∧
      v = jsOrElse s.2.soldDate (clock j)
  | [], _, _, _, h => absurd h (by simp [lastSoldWrite])
  | snap :: rest, k, mid, v, h => by
      rw [lastSoldWrite] at h
      rcases hrest : lastSoldWrite uid clock rest (k + 1) mid with _ | v'
      · rw [hrest] at h
        rcases Bool.eq_false_or_eq_true
            (wantsFix uid snap.1 && !(snap.2.status == "pending_collection") && (snap.2.id == mid))
          with hc | hc
        · rw [if_pos hc] at h
          refine ⟨snap, List.mem_cons_self snap rest, k, hc, ?_⟩
          exact (Option.some.injEq _ _ ▸ h).symm
        · rw [if_neg (by simp [hc])] at h
          exact absurd h (by simp)
      · rw [hrest] at h
        have hv : v' = v := Option.some.injEq _ _ ▸ h
        rcases lastSoldWrite_eq_some uid clock rest (k + 1) mid v (hv ▸ hrest) with
          ⟨s, hs, j, hcond, hval⟩
        exact ⟨s, List.mem_cons_of_mem snap hs, j, hcond, hval⟩

theorem mem_selectionSnaps (st : Storage) (uid : Nat) (s : Auction × Motorcycle)
    (h : s ∈ selectionSnaps st uid) :
    findMotorcycle st s.1.motorcycleId = some s.2 := by
  unfold selectionSnaps at h
  rcases List.mem_filterMap.mp h with ⟨a, _, heq⟩
  rcases hf : findMotorcycle st a.motorcycleId with _ | m0
  · rw [hf] at heq
    exact absurd heq (by simp)
  · rw [hf] at heq
    have : (a, m0) = s := Option.some.injEq _ _ ▸ heq
    rw [← this]
    exact hf

/-- The store is already consistent from the pass's point of view: every
auction it would process (won by `miketrader`, bid accepted) already shows
`pending_collection` on both records. -/
def allConsistentB (st : Storage) : Bool :=
  match getUserByUsername st "miketrader" with
  | none => true
  | some mike =>
      (selectionSnaps st mike.id).all (fun s =>
        !(wantsFix mike.id s.1) ||
          (s.1.status == "pending_collection" && s.2.status == "pending_collection"))

theorem checkMikesAuctions_noop_of_consistent (clock : Nat → String) (st : Storage)
    (h : allConsistentB st = true) : checkMikesAuctions clock st = st := by
  rcases hu : getUserByUsername st "miketrader" with _ | mike
  · exact checkMikesAuctions_eq_of_no_user clock st hu
  · rw [checkMikesAuctions_eq_of_user clock st mike hu]
    apply fixLoop_noop
    intro s hs hw
    unfold allConsistentB at h
    rw [hu, List.all_eq_true] at h
    have hcons := h s hs
    rw [hw] at hcons
    simp at hcons
    exact hcons

theorem forall2_self_map {α : Type} (R : α → α → Prop) (f : α → α) :
    ∀ l : List α, (∀ a, R a (f a)) → List.Forall₂ R l (l.map f)
  | [], _ => List.Forall₂.nil
  | a :: l, h => List.Forall₂.cons (h a) (forall2_self_map R f l h)

theorem forall2_self {α : Type} (R : α → α → Prop) :
    ∀ l : List α, (∀ a, R a a) → List.Forall₂ R l l
  | [], _ => List.Forall₂.nil
  | a :: l, h => List.Forall₂.cons (h a) (forall2_self R l h)

/-- The auction fields the repair pass never writes. -/
def auctionFrame (a : Auction) :
    Nat × Nat × Nat × Option Nat × Bool × Bool × Bool :=
  (a.id, a.motorcycleId, a.dealerId, a.winningBidderId, a.bidAccepted,
    a.dealConfirmed, a.collectionConfirmed)

/-- The motorcycle fields the repair pass never writes. -/
def motoFrame (m : Motorcycle) : Nat × String × String :=
  (m.id, m.make, m.model)

theorem auctionFrame_after (uid : Nat) (snaps : List (Auction × Motorcycle)) (a : Auction) :
    auctionFrame (auctionAfter uid snaps a) = auctionFrame a := by
  unfold auctionAfter
  split <;> rfl

theorem motoFrame_after (uid : Nat) (clock : Nat → String)
    (snaps : List (Auction × Motorcycle)) (m : Motorcycle) :
    motoFrame (motoAfter uid clock snaps m) = motoFrame m := by
  unfold motoAfter
  cases lastSoldWrite uid clock snaps 0 m.id <;> rfl

theorem auctionAfter_status (uid : Nat) (snaps : List (Auction × Motorcycle)) (a : Auction) :
    (auctionAfter uid snaps a).status = a.status ∨
      (auctionAfter uid snaps a).status = "pending_collection" := by
  unfold auctionAfter
  split
  · exact Or.inr rfl
  · exact Or.inl rfl

theorem motoAfter_status (uid : Nat) (clock : Nat → String)
    (snaps : List (Auction × Motorcycle)) (m : Motorcycle) :
    (motoAfter uid clock snaps m).status = m.status ∨
      (motoAfter uid clock snaps m).status = "pending_collection" := by
  unfold motoAfter
  cases lastSoldWrite uid clock snaps 0 m.id
  · exact Or.inl rfl
  · exact Or.inr rfl

theorem getDurationMs_pos (s : String) : 0 < getDurationMs s := by
  unfold getDurationMs
  split <;> norm_num

theorem removeAt_length_le {α : Type} (l : List α) (idx : Nat) :
    (removeAt l idx).length ≤ l.length := by
  unfold removeAt
  calc ((l.enum.filter (fun p => p.1 ≠ idx)).map Prod.snd).length
      = (l.enum.filter (fun p => p.1 ≠ idx)).length := List.length_map _ _
    _ ≤ l.enum.length := List.length_filter_le _ _
    _ = l.length := List.enum_length

theorem removeAt_map {α β : Type} (f : α → β) (l : List α) (idx : Nat) :
    removeAt (l.map f) idx = (removeAt l idx).map f := by
  unfold removeAt
  rw [List.enum_map, List.filter_map, List.map_map, List.map_map]
  have hp : ((fun p : Nat × β => decide (p.1 ≠ idx)) ∘ (Prod.map id f : Nat × α → Nat × β)) =
      (fun p : Nat × α => decide (p.1 ≠ idx)) := by
    funext p
    rfl
  have hf : ((Prod.snd : Nat × β → β) ∘ (Prod.map id f : Nat × α → Nat × β)) =
      (f ∘ (Prod.snd : Nat × α → α)) := by
    funext p
    rfl
  rw [hp, hf]

theorem handleImageChange_preserves (mkUrl : Nat → String) (files : Option (List Nat))
    (s : ImageState) (h1 : s.imageFiles.length ≤ 20)
    (h2 : s.imageUrls = s.imageFiles.map mkUrl) :
    (handleImageChange mkUrl files s).imageFiles.length ≤ 20 ∧
    (handleImageChange mkUrl files s).imageUrls =
      (handleImageChange mkUrl files s).imageFiles.map mkUrl := by
  unfold handleImageChange
  rcases files with _ | filesArray
  · exact ⟨h1, h2⟩
  · constructor
    · simp only [List.length_append, List.length_take]
      have hmin : min (20 - s.imageFiles.length) filesArray.length ≤
          20 - s.imageFiles.length := min_le_left _ _
      omega
    · rw [List.map_append, h2]

theorem removeImage_preserves (mkUrl : Nat → String) (idx : Nat) (s : ImageState)
    (h1 : s.imageFiles.length ≤ 20) (h2 : s.imageUrls = s.imageFiles.map mkUrl) :
    (removeImage idx s).imageFiles.length ≤ 20 ∧
    (removeImage idx s).imageUrls = (removeImage idx s).imageFiles.map mkUrl := by
  unfold removeImage
  constructor
  · exact le_trans (removeAt_length_le _ _) h1
  · rw [h2, removeAt_map]

/-! ## Concrete records referenced by witnesses -/

/-- The drifted auction of `storeDrifted`. -/
def auctionDrifted : Auction :=
  { id := 10, motorcycleId := 100, dealerId := 5, status := "pending_acceptance",
    winningBidderId := some 1, bidAccepted := true, dealConfirmed := false,
    collectionConfirmed := false }

/-- The drifted motorcycle of `storeDrifted`. -/
def motoDrifted : Motorcycle :=
  { id := 100, make := "Honda", model := "CBR600", status := "in_auction", soldDate := none }

/-- `auctionDrifted` as the pass leaves it. -/
def auctionDriftedFixed : Auction :=
  { auctionDrifted with status := "pending_collection" }

/-- `motoDrifted` as the pass leaves it. -/
def motoDriftedFixed : Motorcycle :=
  { id := 100, make := "Honda", model := "CBR600", status := "pending_collection",
    soldDate := some "2025-01-01T00:00:00.000Z" }

/-- The sold motorcycle of `storeCompleted`. -/
def motoCompleted : Motorcycle :=
  { id := 200, make := "Yamaha", model := "MT-07", status := "sold",
    soldDate := some "2024-06-01T12:00:00.000Z" }

/-- `motoCompleted` as the pass leaves it: moved back to
`pending_collection`, `soldDate` untouched. -/
def motoCompletedFixed : Motorcycle :=
  { motoCompleted with status := "pending_collection" }

/-- A valid form submission with radius visibility. -/
def formRadius : UploadFormValues :=
  { dealerId := some 5, make := "Honda", year := some 2020, mileage := some 12000,
    auctionDuration := "1week", visibilityType := "radius", visibilityRadius := some 50 }

/-- Decidable check of invariant I4 over a whole store: every auction whose
motorcycle resolves has `status = pending_collection` iff the motorcycle
does, and `status = completed` iff the motorcycle is `sold`. -/
def i4Check (st : Storage) : Bool :=
  st.auctions.all (fun a =>
    match findMotorcycle st a.motorcycleId with
    | none => true
    | some m =>
        ((a.status == "pending_collection") == (m.status == "pending_collection")) &&
        ((a.status == "completed") == (m.status == "sold")))

/-- Some state of the trace shows the auction already moved to
`pending_collection` while its motorcycle still is not. -/
def splitObserved (tr : List Storage) (aid mid : Nat) : Bool :=
  tr.any (fun s =>
    (auctionStatusOf s aid == some "pending_collection") &&
    !(motoStatusOf s mid == some "pending_collection"))

/-! ## The claims -/

/-- C1 (counterexample): the repaired store does not satisfy I4 for every
auction.  In `storeUnwon`, Mike bid on auction 10 but did not win it
(`winningBidderId = 2`), so the pass leaves it untouched even though its
status is `pending_collection` while its motorcycle is still `in_auction` —
after the pass completes, both I4 biconditionals fail on it. -/
theorem c1_counterexample :
    i4Check (checkMikesAuctions clockA storeUnwon) = false ∧
    auctionStatusOf (checkMikesAuctions clockA storeUnwon) 10 = some "pending_collection" ∧
    motoStatusOf (checkMikesAuctions clockA storeUnwon) 100 = some "in_auction" := by
  refine ⟨by decide, by decide, by decide⟩

/-- C1 (amended): after the repair pass completes, the I4 biconditionals
hold for every auction of the processed set (auctions Mike bid on or won,
with a resolvable motorcycle) that is won by `miketrader` with the bid
accepted: both statuses are then `pending_collection`.  Auctions outside
that set are not repaired. -/
theorem c1_i4_on_processed_set (clock : Nat → String) (st : Storage) (mike : User)
    (hu : getUserByUsername st "miketrader" = some mike) (a : Auction) (m : Motorcycle)
    (hmem : (a, m) ∈ selectionSnaps (checkMikesAuctions clock st) mike.id)
    (hwin : a.winningBidderId = some mike.id) (hacc : a.bidAccepted = true) :
    a.status = "pending_collection" ∧ m.status = "pending_collection" ∧
    (a.status = "pending_collection" ↔ m.status = "pending_collection") ∧
    (a.status = "completed" ↔ m.status = "sold") := by
  have hw : wantsFix mike.id a = true := by
    unfold wantsFix
    rw [hwin, hacc]
    simp
  rw [checkMikesAuctions_eq_of_user clock st mike hu] at hmem
  have h := pass_post_consistent mike.id clock st a m hmem hw
  refine ⟨h.1, h.2, by rw [h.1, h.2], ?_, ?_⟩
  · intro hc
    rw [h.1] at hc
    exact absurd hc (by decide)
  · intro hc
    rw [h.2] at hc
    exact absurd hc (by decide)

/-- C1 (witness): in `storeDrifted` the pass processes auction 10 (won by
Mike, accepted) and the amended statement applies to the repaired pair. -/
theorem c1_witness :
    (getUserByUsername storeDrifted "miketrader" = some mikeUser) ∧
    ((auctionDriftedFixed, motoDriftedFixed) ∈
      selectionSnaps (checkMikesAuctions clockA storeDrifted) mikeUser.id) ∧
    (auctionDriftedFixed.status = "pending_collection" ∧
     motoDriftedFixed.status = "pending_collection" ∧
     (auctionDriftedFixed.status = "pending_collection" ↔
        motoDriftedFixed.status = "pending_collection") ∧
     (auctionDriftedFixed.status = "completed" ↔ motoDriftedFixed.status = "sold")) :=
  ⟨by decide, by decide,
    c1_i4_on_processed_set clockA storeDrifted mikeUser (by decide)
      auctionDriftedFixed motoDriftedFixed (by decide) (by decide) (by decide)⟩

/-- C2: evaluating the repair pass on `storeCompleted` — a fully consistent
terminal state (auction `completed`, motorcycle `sold`, both confirmations
set, Mike the accepted winner).  The pass moves the auction's status
backward from `completed` to `pending_collection` and the motorcycle's from
`sold` back to `pending_collection`, contradicting monotonicity (I5): the
guard on line 189 only checks `status !== 'pending_collection'` and never
exempts the terminal `completed`/`sold` states. -/
theorem c2_backward_move_eval :
    auctionStatusOf storeCompleted 20 = some "completed" ∧
    motoStatusOf storeCompleted 200 = some "sold" ∧
    auctionStatusOf (checkMikesAuctions clockA storeCompleted) 20 =
      some "pending_collection" ∧
    motoStatusOf (checkMikesAuctions clockA storeCompleted) 200 =
      some "pending_collection" := by
  refine ⟨by decide, by decide, by decide, by decide⟩

/-- C3 (counterexample): the two record updates are separate storage calls:
while repairing `storeDrifted`, one of the observable storage states already
has the auction at `pending_collection` while its motorcycle is not —
exactly the intermediate state the claim says no observer can see.  The
trace has two entries, one per storage call. -/
theorem c3_counterexample :
    splitObserved (checkMikesAuctionsTrace clockA storeDrifted) 10 100 = true ∧
    (checkMikesAuctionsTrace clockA storeDrifted).length = 2 := by
  refine ⟨by decide, by decide⟩

/-- C3 (amended): for an auction needing both fixes, a loop iteration issues
exactly two successive storage writes, `updateAuction` then
`updateMotorcycle`.  After the first write the auction already reads
`pending_collection` while the motorcycle is unchanged (not
`pending_collection`); only after the second write do the two records
agree. -/
theorem c3_two_separate_writes (uid : Nat) (now : String) (st : Storage)
    (a : Auction) (m : Motorcycle)
    (hw : wantsFix uid a = true)
    (ha : ¬ a.status = "pending_collection") (hm : ¬ m.status = "pending_collection")
    (hfa : findAuction st a.id = some a)
    (hfm : findMotorcycle st m.id = some m) :
    fixAuctionTrace uid now st (a, m) =
      [updateAuction st a.id "pending_collection",
       updateMotorcycle (updateAuction st a.id "pending_collection") m.id
         "pending_collection" (jsOrElse m.soldDate now)] ∧
    auctionStatusOf (updateAuction st a.id "pending_collection") a.id =
      some "pending_collection" ∧
    motoStatusOf (updateAuction st a.id "pending_collection") m.id = some m.status ∧
    auctionStatusOf
        (updateMotorcycle (updateAuction st a.id "pending_collection") m.id
          "pending_collection" (jsOrElse m.soldDate now)) a.id =
      some "pending_collection" ∧
    motoStatusOf
        (updateMotorcycle (updateAuction st a.id "pending_collection") m.id
          "pending_collection" (jsOrElse m.soldDate now)) m.id =
      some "pending_collection" := by
  have haB : (a.status == "pending_collection") = false := by
    simp [ha]
  have hmB : (m.status == "pending_collection") = false := by
    simp [hm]
  refine ⟨?_, ?_, ?_, ?_, ?_⟩
  · unfold fixAuctionTrace
    simp [hw, haB, hmB]
  · unfold auctionStatusOf
    rw [findAuction_updateAuction, hfa]
    rfl
  · unfold motoStatusOf
    rw [findMotorcycle_updateAuction, hfm]
    rfl
  · unfold auctionStatusOf
    rw [findAuction_updateMotorcycle, findAuction_updateAuction, hfa]
    rfl
  · unfold motoStatusOf
    rw [findMotorcycle_updateMotorcycle, findMotorcycle_updateAuction, hfm]
    rfl

/-- C3 (witness): the amended statement applied to the drifted store. -/
theorem c3_witness :
    fixAuctionTrace 1 "2025-01-01T00:00:00.000Z" storeDrifted
        (auctionDrifted, motoDrifted) =
      [updateAuction storeDrifted 10 "pending_collection",
       updateMotorcycle (updateAuction storeDrifted 10 "pending_collection") 100
         "pending_collection" "2025-01-01T00:00:00.000Z"] ∧
    auctionStatusOf (updateAuction storeDrifted 10 "pending_collection") 10 =
      some "pending_collection" ∧
    motoStatusOf (updateAuction storeDrifted 10 "pending_collection") 100 =
      some "in_auction" := by
  have h := c3_two_separate_writes 1 "2025-01-01T00:00:00.000Z" storeDrifted
    auctionDrifted motoDrifted (by decide) (by decide) (by decide) (by decide) (by decide)
  exact ⟨h.1, h.2.1, h.2.2.1⟩

theorem fixLoopTrace_noop (uid : Nat) (clock : Nat → String) :
    ∀ (snaps : List (Auction × Motorcycle)) (k : Nat) (st : Storage),
    (∀ s ∈ snaps, wantsFix uid s.1 = true →
        s.1.status = "pending_collection" ∧ s.2.status = "pending_collection") →
    fixLoopTrace uid clock snaps k st = []
  | [], _, _, _ => rfl
  | snap :: rest, k, st, h => by
      have hstep : fixAuctionTrace uid (clock k) st snap = [] := by
        unfold fixAuctionTrace
        rcases Bool.eq_false_or_eq_true (wantsFix uid snap.1) with hw | hw
        · have hpc := h snap (List.mem_cons_self snap rest) hw
          simp [hw, hpc.1, hpc.2]
        · simp [hw]
      rw [fixLoopTrace, hstep]
      rw [List.nil_append]
      exact fixLoopTrace_noop uid clock rest (k + 1) _
        (fun s hs => h s (List.mem_cons_of_mem snap hs))

theorem checkMikesAuctionsTrace_noop_of_consistent (clock : Nat → String) (st : Storage)
    (h : allConsistentB st = true) : checkMikesAuctionsTrace clock st = [] := by
  rcases hu : getUserByUsername st "miketrader" with _ | mike
  · unfold checkMikesAuctionsTrace
    rw [hu]
  · unfold checkMikesAuctionsTrace
    rw [hu]
    apply fixLoopTrace_noop
    intro s hs hw
    unfold allConsistentB at h
    rw [hu, List.all_eq_true] at h
    have hcons := h s hs
    rw [hw] at hcons
    simp at hcons
    exact hcons

/-- C4: the repair pass is idempotent — running it twice in a row (with any
timestamps) equals running it once — and when every auction it would touch
already has both statuses at `pending_collection` it performs no write at
all: no storage call is issued (the observable trace is empty) and the
store is returned unchanged. -/
theorem c4_idempotent_and_quiescent (clock1 clock2 : Nat → String) (st : Storage) :
    checkMikesAuctions clock2 (checkMikesAuctions clock1 st) =
      checkMikesAuctions clock1 st ∧
    (allConsistentB st = true →
      checkMikesAuctions clock1 st = st ∧ checkMikesAuctionsTrace clock1 st = []) :=
  ⟨checkMikesAuctions_idem clock1 clock2 st,
   fun h => ⟨checkMikesAuctions_noop_of_consistent clock1 st h,
     checkMikesAuctionsTrace_noop_of_consistent clock1 st h⟩⟩

/-- C4 (witness): idempotence observed on the drifted store, and the
already-consistent store is returned verbatim. -/
theorem c4_witness :
    (checkMikesAuctions clockB (checkMikesAuctions clockA storeDrifted) =
      checkMikesAuctions clockA storeDrifted) ∧
    (allConsistentB storeConsistent = true) ∧
    (checkMikesAuctions clockA storeConsistent = storeConsistent) ∧
    (checkMikesAuctionsTrace clockA storeConsistent = []) :=
  ⟨(c4_idempotent_and_quiescent clockA clockB storeDrifted).1, by decide,
   ((c4_idempotent_and_quiescent clockA clockA storeConsistent).2 (by decide)).1,
   ((c4_idempotent_and_quiescent clockA clockA storeConsistent).2 (by decide)).2⟩

/-- C5 (counterexample): the repair does not leave the Auction record
unchanged: repairing `storeDrifted` rewrites auction 10's status from
`pending_acceptance` to `pending_collection`. -/
theorem c5_counterexample :
    auctionStatusOf storeDrifted 10 = some "pending_acceptance" ∧
    auctionStatusOf (checkMikesAuctions clockA storeDrifted) 10 =
      some "pending_collection" := by
  refine ⟨by decide, by decide⟩

/-- C5 (amended): the repair corrects both records, not only the Item.  It
writes `Auction.status` (to `pending_collection`) as well as the
motorcycle; every auction field other than `status` is unchanged, every
motorcycle field other than `status`/`soldDate` is unchanged, bids and
users are untouched, and each status either keeps its old value or becomes
`pending_collection`. -/
theorem c5_frame (clock : Nat → String) (st : Storage) :
    (checkMikesAuctions clock st).auctions.map auctionFrame =
      st.auctions.map auctionFrame ∧
    (checkMikesAuctions clock st).motorcycles.map motoFrame =
      st.motorcycles.map motoFrame ∧
    (checkMikesAuctions clock st).bids = st.bids ∧
    (checkMikesAuctions clock st).users = st.users ∧
    List.Forall₂ (fun a b => b.status = a.status ∨ b.status = "pending_collection")
      st.auctions (checkMikesAuctions clock st).auctions ∧
    List.Forall₂ (fun m m2 => m2.status = m.status ∨ m2.status = "pending_collection")
      st.motorcycles (checkMikesAuctions clock st).motorcycles := by
  rcases hu : getUserByUsername st "miketrader" with _ | mike
  · rw [checkMikesAuctions_eq_of_no_user clock st hu]
    refine ⟨rfl, rfl, rfl, rfl, ?_, ?_⟩
    · exact forall2_self _ _ (fun a => Or.inl rfl)
    · exact forall2_self _ _ (fun m => Or.inl rfl)
  · rw [checkMikesAuctions_eq_of_user clock st mike hu]
    refine ⟨?_, ?_, fixLoop_bids _ _ _ _ _, fixLoop_users _ _ _ _ _, ?_, ?_⟩
    · rw [fixLoop_auctions_eq, List.map_map]
      congr 1
      funext a
      exact auctionFrame_after _ _ a
    · rw [fixLoop_motorcycles_eq, List.map_map]
      congr 1
      funext m
      exact motoFrame_after _ _ _ m
    · rw [fixLoop_auctions_eq]
      exact forall2_self_map _ _ _ (fun a => auctionAfter_status _ _ a)
    · rw [fixLoop_motorcycles_eq]
      exact forall2_self_map _ _ _ (fun m => motoAfter_status _ _ _ m)

/-- C6 (counterexample): `soldDate` is not set at most once.  In
`storeAliased` two processed auctions (10 and 11, both won by Mike with
accepted bids) reference motorcycle 100, whose `soldDate` is unset.  The
first iteration writes `soldDate` at the first clock tick; the second
iteration's guard still reads the stale pre-pass snapshot and overwrites
the now-set `soldDate` with the second clock tick. -/
theorem c6_counterexample :
    soldAt (checkMikesAuctionsTrace clockB storeAliased) 1 100 =
      some "2025-01-01T00:00:00.000Z" ∧
    soldAt (checkMikesAuctionsTrace clockB storeAliased) 2 100 =
      some "2025-01-01T00:00:00.000Z" ∧
    soldAt (checkMikesAuctionsTrace clockB storeAliased) 3 100 =
      some "2025-01-01T00:00:05.000Z" ∧
    ("2025-01-01T00:00:00.000Z" : String) ≠ "2025-01-01T00:00:05.000Z" := by
  refine ⟨by decide, by decide, by decide, by decide⟩

/-- C6 (amended): a `soldDate` that is already set (and non-empty — the
script's `||` treats the empty string as unset) when the pass starts is
never overwritten: every write the pass issues for that motorcycle
re-derives `soldDate` from the pre-pass snapshot, which keeps the existing
value.  Only a `soldDate` first written during the same pass can be
overwritten, when several processed auctions reference one motorcycle. -/
theorem c6_preexisting_soldDate_kept (clock : Nat → String) (st : Storage) (mid : Nat)
    (m : Motorcycle) (s : String) (hfm : findMotorcycle st mid = some m)
    (hsd : m.soldDate = some s) (hne : s ≠ "") (m2 : Motorcycle)
    (hfm2 : findMotorcycle (checkMikesAuctions clock st) mid = some m2) :
    m2.soldDate = some s := by
  rcases hu : getUserByUsername st "miketrader" with _ | mike
  · rw [checkMikesAuctions_eq_of_no_user clock st hu, hfm] at hfm2
    have hm2 : m = m2 := Option.some.injEq _ _ ▸ hfm2
    rw [← hm2]
    exact hsd
  · rw [checkMikesAuctions_eq_of_user clock st mike hu,
      findMotorcycle_fixLoop, hfm] at hfm2
    have hm2 : motoAfter mike.id clock (selectionSnaps st mike.id) m = m2 :=
      Option.some.injEq _ _ ▸ hfm2
    rw [← hm2]
    unfold motoAfter
    rcases hsw : lastSoldWrite mike.id clock (selectionSnaps st mike.id) 0 m.id with _ | v
    · exact hsd
    · rcases lastSoldWrite_eq_some mike.id clock (selectionSnaps st mike.id) 0 m.id v hsw
        with ⟨sn, hsn, j, hcond, hval⟩
      have hsnid : (sn.2.id == m.id) = true := by
        rcases Bool.eq_false_or_eq_true (sn.2.id == m.id) with hx | hx
        · exact hx
        · rw [hx, Bool.and_false] at hcond
          exact absurd hcond (by simp)
      have hfmRaw : st.motorcycles.find? (fun x => x.id == mid) = some m := hfm
      have e2raw := List.find?_some hfmRaw
      have e2 : m.id = mid := eq_of_beq e2raw
      have hsnm : findMotorcycle st sn.1.motorcycleId = some sn.2 :=
        mem_selectionSnaps st mike.id sn hsn
      have hsnmRaw : st.motorcycles.find? (fun x => x.id == sn.1.motorcycleId) = some sn.2 :=
        hsnm
      have e3raw := List.find?_some hsnmRaw
      have e3 : sn.2.id = sn.1.motorcycleId := eq_of_beq e3raw
      have heq1 : sn.1.motorcycleId = mid := by
        have e1 : sn.2.id = m.id := eq_of_beq hsnid
        rw [← e3, e1, e2]
      have hsn2 : sn.2 = m := by
        rw [heq1, hfm] at hsnm
        exact (Option.some_inj.mp hsnm).symm
      have hv : v = s := by
        rw [hval, hsn2, hsd]
        exact jsOrElse_of_ne_empty s (clock j) hne
    -- the written value equals the pre-existing soldDate
      rw [hv]

/-- C6 (witness): the sold motorcycle of `storeCompleted` keeps its
original `soldDate` through the pass. -/
theorem c6_witness :
    (findMotorcycle (checkMikesAuctions clockA storeCompleted) 200 =
      some motoCompletedFixed) ∧
    motoCompletedFixed.soldDate = some "2024-06-01T12:00:00.000Z" :=
  ⟨by decide,
   c6_preexisting_soldDate_kept clockA storeCompleted 200 motoCompleted
     "2024-06-01T12:00:00.000Z" (by decide) (by decide) (by decide)
     motoCompletedFixed (by decide)⟩

/-- C7: every auction-creation payload has
`endTime = startTime + getDurationMs(auctionDuration)`, and `getDurationMs`
is strictly positive on every string (each enum value and the default), so
`endTime` strictly exceeds `startTime`. -/
theorem c7_end_exceeds_start (now : Nat) (motorcycleId : Nat) (d : UploadFormValues) :
    (createAuctionPayload now motorcycleId d).endTime =
      (createAuctionPayload now motorcycleId d).startTime +
        getDurationMs d.auctionDuration ∧
    (createAuctionPayload now motorcycleId d).startTime <
      (createAuctionPayload now motorcycleId d).endTime ∧
    ∀ dur : String, 0 < getDurationMs dur := by
  refine ⟨rfl, ?_, getDurationMs_pos⟩
  show now < now + getDurationMs d.auctionDuration
  have h := getDurationMs_pos d.auctionDuration
  omega

/-- C8: starting from the empty selection, any sequence of
`handleImageChange` and `removeImage` calls keeps at most 20 selected
files, keeps exactly as many preview URLs as files, and keeps the URL at
each index the preview (`URL.createObjectURL`) of the file at the same
index. -/
theorem c8_image_state_invariant (mkUrl : Nat → String) (ops : List ImgOp) :
    (runImgOps mkUrl ops).imageFiles.length ≤ 20 ∧
    (runImgOps mkUrl ops).imageUrls.length = (runImgOps mkUrl ops).imageFiles.length ∧
    (runImgOps mkUrl ops).imageUrls = (runImgOps mkUrl ops).imageFiles.map mkUrl := by
  have main : ∀ (l : List ImgOp) (s : ImageState),
      s.imageFiles.length ≤ 20 → s.imageUrls = s.imageFiles.map mkUrl →
      (l.foldl (applyImgOp mkUrl) s).imageFiles.length ≤ 20 ∧
      (l.foldl (applyImgOp mkUrl) s).imageUrls =
        (l.foldl (applyImgOp mkUrl) s).imageFiles.map mkUrl := by
    intro l
    induction l with
    | nil => intro s h1 h2; exact ⟨h1, h2⟩
    | cons op rest ih =>
        intro s h1 h2
        rcases op with files | idx
        · have h := handleImageChange_preserves mkUrl files s h1 h2
          exact ih _ h.1 h.2
        · have h := removeImage_preserves mkUrl idx s h1 h2
          exact ih _ h.1 h.2
  have h := main ops initialImageState (by simp [initialImageState]) rfl
  unfold runImgOps
  refine ⟨h.1, ?_, h.2⟩
  rw [h.2, List.length_map]

/-- C9: the duration table of `getDurationMs`: 1 day = 86400000 ms, 1 week
= 604800000 ms, 2 weeks = 1209600000 ms, 1 month = 2592000000 ms (exactly
30 days, not a calendar month), and every other string falls through to the
1-day default. -/
theorem c9_duration_table :
    getDurationMs "1day" = 86400000 ∧
    getDurationMs "1week" = 604800000 ∧
    getDurationMs "2weeks" = 1209600000 ∧
    getDurationMs "1month" = 2592000000 ∧
    2592000000 = 30 * 86400000 ∧
    ∀ s : String, s ≠ "1day" → s ≠ "1week" → s ≠ "2weeks" → s ≠ "1month" →
      getDurationMs s = 86400000 := by
  refine ⟨by norm_num [getDurationMs], by norm_num [getDurationMs],
    by norm_num [getDurationMs], by norm_num [getDurationMs], by norm_num, ?_⟩
  intro s h1 h2 h3 h4
  unfold getDurationMs
  split
  · simp_all
  · simp_all
  · simp_all
  · simp_all
  · norm_num

/-- C9 (witness): an arbitrary other string falls through to the 1-day
default. -/
theorem c9_witness : getDurationMs "3days" = 86400000 :=
  c9_duration_table.2.2.2.2.2 "3days" (by decide) (by decide) (by decide) (by decide)

/-- C10: for every form state accepted by `uploadSchema`, the auction
payload's `visibilityType` is one of `all`/`favorites`/`radius` (passed
through from the form), its `visibilityRadius` equals the form's radius
value when `visibilityType = radius`, and is null for every other
visibility type. -/
theorem c10_visibility_payload (d : UploadFormValues) (now motorcycleId : Nat)
    (h : uploadSchemaCheck d = true) :
    validVisibilityType (createAuctionPayload now motorcycleId d).visibilityType = true ∧
    (createAuctionPayload now motorcycleId d).visibilityType = d.visibilityType ∧
    (d.visibilityType = "radius" →
      (createAuctionPayload now motorcycleId d).visibilityRadius = d.visibilityRadius) ∧
    (d.visibilityType ≠ "radius" →
      (createAuctionPayload now motorcycleId d).visibilityRadius = none) := by
  have hv : validVisibilityType d.visibilityType = true := by
    unfold uploadSchemaCheck at h
    rcases Bool.eq_false_or_eq_true (validVisibilityType d.visibilityType) with hx | hx
    · exact hx
    · rw [hx, Bool.and_false] at h
      exact absurd h (by simp)
  refine ⟨hv, rfl, ?_, ?_⟩
  · intro hr
    unfold createAuctionPayload
    simp [hr]
  · intro hr
    unfold createAuctionPayload
    simp [hr]

/-- C10 (witness): a valid radius-visibility submission carries the form's
radius value. -/
theorem c10_witness :
    (uploadSchemaCheck formRadius = true) ∧
    (createAuctionPayload 1700000000000 7 formRadius).visibilityRadius = some 50 :=
  ⟨by decide,
   (c10_visibility_payload formRadius 1700000000000 7 (by decide)).2.2.1 (by decide)⟩
